import Mathlib

/-!
# Verification of the playground execution-and-session core (src/app.js)

Shallow embedding of the execution core of the in-browser playground:
the session runner (`runCode`), the help resolver (`isHelpRequest`), the
REPL history controller (`handleConsoleEnter` / `handleConsoleUp` /
`handleConsoleDown` / `runFromEditor`), and the plot gallery (`addPlot`,
`clearPlots`, the prev/next click handlers).

The interpreter (webR) is an external collaborator; its behaviour during
one `runCode` invocation is modelled by an oracle `InterpBehavior`
(shelter acquisition fails, evaluation fails, or evaluation succeeds with
an `EvalResult`).  `runCode` additionally emits a trace of resource and
sink events so that shelter acquisition/release ordering can be stated.
-/

namespace Playground

/-- JavaScript `String.prototype.trim`: strip whitespace from both ends.
Modelled over the char list of the string (whitespace = space, tab, CR, LF). -/
def jsTrim (s : String) : String :=
  String.mk (((s.toList.dropWhile Char.isWhitespace).reverse.dropWhile
    Char.isWhitespace).reverse)

/-- The double-quote character, `"` (U+0022). -/
def dquote : Char := Char.ofNat 34

/-- The single-quote character (U+0027). -/
def squote : Char := Char.ofNat 39

/-- A character matched by the JS regex class `["']`. -/
def isQuoteChar (c : Char) : Bool := c = dquote || c = squote

/-- A character matched by the JS regex class `[^"')]`
(anything but a quote or a closing parenthesis; newlines are included). -/
def isTopicChar (c : Char) : Bool := c ≠ dquote && c ≠ squote && c ≠ ')'

/-- A character matched by JS regex `.` without the `s` flag:
anything but a line terminator. -/
def isDotChar (c : Char) : Bool :=
  c ≠ '\n' && c ≠ '\r' && c ≠ Char.ofNat 0x2028 && c ≠ Char.ofNat 0x2029

/-- `code.match(/^\?(.+)$/)`: the code starts with `?` and the rest is a
non-empty run of non-newline characters; the capture is that rest. -/
def matchHelpTopic1 (code : String) : Option String :=
  match code.toList with
  | [] => none
  | c :: rest =>
    if c = '?' && !rest.isEmpty && rest.all isDotChar then
      some (String.mk rest)
    else none

/-- The part of the code strictly between a leading `help(` and a trailing
`)`, when the code has that shape. -/
def helpCallInner (code : String) : Option (List Char) :=
  let cs := code.toList
  if cs.take 5 = ['h', 'e', 'l', 'p', '('] then
    match (cs.drop 5).reverse with
    | ')' :: revInner => some revInner.reverse
    | _ => none
  else none

/-- `code.match(/^help\(["']?([^"')]+)["']?\)$/)`: inside `help(...)`, an
optional opening quote, a non-empty run of `[^"')]` characters (the
capture), and an optional closing quote.  Backtracking is deterministic
here because the topic class excludes both quote characters. -/
def matchHelpTopic2 (code : String) : Option String :=
  match helpCallInner code with
  | none => none
  | some inner =>
    let body := match inner with
      | c :: rest => if isQuoteChar c then rest else inner
      | [] => []
    match body.reverse with
    | [] => none
    | c :: revTopic =>
      if isQuoteChar c then
        let topic := revTopic.reverse
        if !topic.isEmpty && topic.all isTopicChar then
          some (String.mk topic)
        else none
      else
        if body.all isTopicChar then some (String.mk body) else none

/-- `isHelpRequest` (src/app.js:207-210): try the `?topic` pattern, then the
`help(topic)` pattern; return the trimmed capture of the first match, else
`none` (JS `null`). -/
def isHelpRequest (code : String) : Option String :=
  match matchHelpTopic1 code with
  | some t => some (jsTrim t)
  | none => (matchHelpTopic2 code).map jsTrim

example : isHelpRequest ("?mean") = some ("mean") := by decide
example : isHelpRequest ("help(\"plot\")") = some ("plot") := by decide
example : isHelpRequest ("help('plot')") = some ("plot") := by decide
example : isHelpRequest ("help(plot)") = some ("plot") := by decide
example : isHelpRequest ("1 + 1") = none := by decide
example : isHelpRequest ("? mean ") = some ("mean") := by decide
example : isHelpRequest ("help()") = none := by decide

/-! ## Data model -/

/-- Display category of a console output line (`appendConsole`'s `type`). -/
inductive OutKind
  | stdout
  | stderr
  | command
  | system
deriving DecidableEq, Repr

/-- One line of the Output Sink (`#consoleOutput`): the text and its
display category (src/app.js:164-173, `appendConsole`). -/
structure ConsoleLine where
  text : String
  kind : OutKind
deriving DecidableEq, Repr

/-- One Output Record produced by the interpreter for one evaluation:
the closed tagged variant over `out.type` values that `runCode` inspects. -/
inductive RRecord
  | stdout (data : String)
  | stderr (data : String)
  | message (data : String)
deriving DecidableEq, Repr

/-- The Evaluation Result of one `shelter.captureR` round-trip: ordered
output records plus ordered rendered images (here already normalised to
their data-URL strings). -/
structure EvalResult where
  output : List RRecord
  images : List String
deriving DecidableEq, Repr

/-- Oracle for the interpreter's behaviour during one `runCode` call:
`new webR.Shelter()` rejects, `shelter.captureR` rejects, or the
evaluation succeeds with a result. -/
inductive InterpBehavior
  | shelterFail (msg : String)
  | captureFail (msg : String)
  | success (r : EvalResult)
deriving DecidableEq, Repr

/-- Resource and sink events emitted by one `runCode` call, in program
order: shelter acquisition (`new webR.Shelter()`), shelter release
(`shelter.purge()`), Run Lock set/clear (`isRunning`), Output Sink
appends, and help lookups. -/
inductive Event
  | acquire
  | release
  | lockSet
  | lockClear
  | sinkAppend (line : ConsoleLine)
  | helpLookup (topic : String)
deriving DecidableEq, Repr

/-- The mutable module-level state of src/app.js:5-12 that the execution
core reads and writes.  `webRLoaded` is `webR !== null`; `liveBuffer` is
the console input widget's current text. -/
structure AppState where
  isRunning : Bool
  webRLoaded : Bool
  consoleOutput : List ConsoleLine
  plotImages : List String
  currentPlotIndex : Nat
  commandHistory : List String
  historyIndex : Int
  liveBuffer : String
deriving DecidableEq, Repr

/-- The initial values of the module-level state (src/app.js:5-12). -/
def initialState : AppState :=
  { isRunning := false
    webRLoaded := false
    consoleOutput := []
    plotImages := []
    currentPlotIndex := 0
    commandHistory := []
    historyIndex := -1
    liveBuffer := "" }

/-- The state right after a successful bootstrap: `webR` is set and the
session is Ready, nothing has been run yet. -/
def readyState : AppState :=
  { initialState with webRLoaded := true }

/-! ## Plot gallery -/

/-- `addPlot` (src/app.js:275-289), restricted to its state effect: push
the (already normalised) image and focus the newly appended position. -/
def addPlot (img : String) (s : AppState) : AppState :=
  { s with
    plotImages := s.plotImages ++ [img]
    currentPlotIndex := (s.plotImages ++ [img]).length - 1 }

/-- `addPlot` folded over a list of images, in original order. -/
def addPlots (imgs : List String) (s : AppState) : AppState :=
  imgs.foldl (fun st img => addPlot img st) s

/-- `clearPlots` (src/app.js:291-295). -/
def clearPlots (s : AppState) : AppState :=
  { s with plotImages := [], currentPlotIndex := 0 }

/-- The `plotPrev` click handler (src/app.js:550-557): decrement the
current index unless already at index 0. -/
def plotPrevClick (s : AppState) : AppState :=
  if 0 < s.currentPlotIndex then
    { s with currentPlotIndex := s.currentPlotIndex - 1 }
  else s

/-- The `plotNext` click handler (src/app.js:559-566): increment the
current index unless already at the last index. -/
def plotNextClick (s : AppState) : AppState :=
  if s.currentPlotIndex < s.plotImages.length - 1 then
    { s with currentPlotIndex := s.currentPlotIndex + 1 }
  else s

/-- The plot viewport as rendered by `updatePlotDisplay`
(src/app.js:248-273): `none` is the empty placeholder; otherwise the
shown image with its 1-based position and the total count. -/
def currentView (s : AppState) : Option (String × Nat × Nat) :=
  if s.plotImages.isEmpty then none
  else some (s.plotImages.getD s.currentPlotIndex "",
             s.currentPlotIndex + 1, s.plotImages.length)

/-! ## Session runner -/

/-- Split a char list at every occurrence of `c`, keeping empty pieces:
the semantics of JavaScript `String.prototype.split` with a one-char
separator. -/
def splitOnChar (c : Char) : List Char → List (List Char)
  | [] => [[]]
  | x :: xs =>
    let r := splitOnChar c xs
    if x = c then [] :: r
    else
      match r with
      | [] => [[x]]
      | h :: t => (x :: h) :: t

/-- JavaScript `code.split('\n')`. -/
def splitLines (code : String) : List String :=
  (splitOnChar '\n' code.toList).map String.mk

/-- The command-echo lines of `runCode` (src/app.js:368-371): each
physical line of the code, the first prefixed `> `, continuations `+ `. -/
def echoLines (code : String) : List ConsoleLine :=
  (splitLines code).enum.map
    (fun p => ⟨(if p.1 = 0 then "> " else "+ ") ++ p.2, OutKind.command⟩)

/-- The output-record routing loop of `runCode` (src/app.js:387-395):
non-blank stdout records go to the sink as `stdout`, non-blank stderr
records as `stderr`, message records as `stderr` unconditionally; blank
stdout/stderr records are dropped. -/
def routeOutput : List RRecord → List ConsoleLine
  | [] => []
  | RRecord.stdout d :: rest =>
    if jsTrim d ≠ "" then ⟨d, OutKind.stdout⟩ :: routeOutput rest
    else routeOutput rest
  | RRecord.stderr d :: rest =>
    if jsTrim d ≠ "" then ⟨d, OutKind.stderr⟩ :: routeOutput rest
    else routeOutput rest
  | RRecord.message d :: rest => ⟨d, OutKind.stderr⟩ :: routeOutput rest

/-- The single error record appended when a run fails
(src/app.js:407-409). -/
def errorLine (msg : String) : ConsoleLine :=
  ⟨"Error: " ++ msg, OutKind.stderr⟩

/-- `runCode` (src/app.js:351-415), with the interpreter round-trip
resolved by the oracle `interp`.  Returns the new state and the trace of
resource/sink events in program order.  Paths:
guard (`isRunning || !webR || !code`) → silent return;
help request → echo one command line and look the topic up (no lock, no
shelter); otherwise set the lock, echo the code, acquire a shelter,
evaluate, route outputs and images on success or append one error record
on failure, release the shelter whenever it was acquired (the
`finally`), and clear the lock. -/
def runCode (interp : InterpBehavior) (code : String) (s : AppState) :
    AppState × List Event :=
  if s.isRunning = true ∨ s.webRLoaded = false ∨ code = "" then (s, [])
  else
    match isHelpRequest code with
    | some topic =>
      let line : ConsoleLine := ⟨"> " ++ code, OutKind.command⟩
      ({ s with consoleOutput := s.consoleOutput ++ [line] },
       [Event.sinkAppend line, Event.helpLookup topic])
    | none =>
      let echo := echoLines code
      let echoEv := echo.map Event.sinkAppend
      let s2 := { s with isRunning := true,
                         consoleOutput := s.consoleOutput ++ echo }
      match interp with
      | InterpBehavior.shelterFail msg =>
        ({ s2 with
            consoleOutput := s2.consoleOutput ++ [errorLine msg]
            isRunning := false },
         (Event.lockSet :: echoEv) ++
           [Event.sinkAppend (errorLine msg), Event.lockClear])
      | InterpBehavior.captureFail msg =>
        ({ s2 with
            consoleOutput := s2.consoleOutput ++ [errorLine msg]
            isRunning := false },
         (Event.lockSet :: echoEv) ++
           [Event.acquire, Event.release,
            Event.sinkAppend (errorLine msg), Event.lockClear])
      | InterpBehavior.success r =>
        let outLines := routeOutput r.output
        let s3 := addPlots r.images
          { s2 with consoleOutput := s2.consoleOutput ++ outLines }
        ({ s3 with isRunning := false },
         (Event.lockSet :: echoEv) ++
           ((Event.acquire :: outLines.map Event.sinkAppend) ++
            [Event.release, Event.lockClear]))

/-! ## REPL history controller -/

/-- `handleConsoleEnter` (src/app.js:103-111): trim the console input; if
non-empty, push it onto the front of the history, reset the cursor,
clear the input, and run it. -/
def handleConsoleEnter (interp : InterpBehavior) (s : AppState) :
    AppState × List Event :=
  let code := jsTrim s.liveBuffer
  if code ≠ "" then
    runCode interp code
      { s with
        commandHistory := code :: s.commandHistory
        historyIndex := -1
        liveBuffer := "" }
  else (s, [])

/-- `handleConsoleUp` (src/app.js:113-119): when the cursor is not yet at
the oldest entry, advance it and recall that entry into the input. -/
def handleConsoleUp (s : AppState) : AppState :=
  if s.historyIndex < (s.commandHistory.length : Int) - 1 then
    let i := s.historyIndex + 1
    { s with historyIndex := i,
             liveBuffer := s.commandHistory.getD i.toNat "" }
  else s

/-- `handleConsoleDown` (src/app.js:121-130): move the cursor back toward
the live line; from cursor 0 return to `-1` with an empty input. -/
def handleConsoleDown (s : AppState) : AppState :=
  if s.historyIndex > 0 then
    let i := s.historyIndex - 1
    { s with historyIndex := i,
             liveBuffer := s.commandHistory.getD i.toNat "" }
  else if s.historyIndex = 0 then
    { s with historyIndex := -1, liveBuffer := "" }
  else s

/-- `runFromEditor` (src/app.js:132-151), with the editor text already
resolved to `code` (the selection, or the cursor's line): run the
trimmed code when non-blank.  The history is never touched. -/
def runFromEditor (interp : InterpBehavior) (code : String) (s : AppState) :
    AppState × List Event :=
  if jsTrim code ≠ "" then runCode interp (jsTrim code) s else (s, [])

/-- One console submission: the user types `input` into the console and
presses Enter. -/
def submitConsole (interp : InterpBehavior) (input : String) (s : AppState) :
    AppState :=
  (handleConsoleEnter interp { s with liveBuffer := input }).1

/-- Successive console submissions, in submission order. -/
def submitAll (interp : InterpBehavior) (inputs : List String) (s : AppState) :
    AppState :=
  inputs.foldl (fun st inp => submitConsole interp inp st) s

/-! ## Helper lemmas about `dropWhile` and `jsTrim` -/

lemma dropWhile_length_le {α : Type _} (p : α → Bool) (l : List α) :
    (l.dropWhile p).length ≤ l.length := by
  induction l with
  | nil => simp
  | cons a l ih =>
    rw [List.dropWhile_cons]
    split
    · exact Nat.le_trans ih (Nat.le_succ _)
    · simp

lemma dropWhile_dropWhile {α : Type _} (p : α → Bool) (l : List α) :
    List.dropWhile p (List.dropWhile p l) = List.dropWhile p l := by
  induction l with
  | nil => simp
  | cons a l ih =>
    rw [List.dropWhile_cons]
    split
    · exact ih
    · rw [List.dropWhile_cons]
      simp [*]

lemma head_fails_of_dropWhile_cons {α : Type _} (p : α → Bool) (x : α)
    (t : List α) (h : List.dropWhile p (x :: t) = x :: t) : p x = false := by
  by_cases hp : p x = true
  · exfalso
    rw [List.dropWhile_cons, if_pos hp] at h
    have hl := dropWhile_length_le p t
    rw [h] at hl
    simp at hl
  · simpa using hp

lemma dropWhile_append_fixed {α : Type _} (p : α → Bool) (X C : List α)
    (h : List.dropWhile p (X ++ C) = X ++ C) :
    List.dropWhile p X = X := by
  cases X with
  | nil => simp
  | cons x t =>
    have hx : p x = false := head_fails_of_dropWhile_cons p x (t ++ C) h
    rw [List.dropWhile_cons, if_neg (by simp [hx])]

lemma jsTrim_toList (s : String) :
    (jsTrim s).toList =
      ((s.toList.dropWhile Char.isWhitespace).reverse.dropWhile
        Char.isWhitespace).reverse := rfl

/-- `jsTrim` is idempotent: a trimmed string is its own trim. -/
lemma jsTrim_jsTrim (s : String) : jsTrim (jsTrim s) = jsTrim s := by
  set ws := Char.isWhitespace with hws
  set A := s.toList.dropWhile ws with hA
  set B := A.reverse.dropWhile ws with hB
  have hfixA : List.dropWhile ws A = A := dropWhile_dropWhile ws s.toList
  have hdecomp : A = B.reverse ++ (A.reverse.takeWhile ws).reverse := by
    conv_lhs =>
      rw [← List.reverse_reverse A, ← List.takeWhile_append_dropWhile ws A.reverse]
    rw [List.reverse_append, hB]
  have hfixR : List.dropWhile ws B.reverse = B.reverse := by
    apply dropWhile_append_fixed ws B.reverse _ (hdecomp ▸ hfixA)
  have hfixB : List.dropWhile ws B = B := by
    rw [hB]
    exact dropWhile_dropWhile ws A.reverse
  show String.mk _ = String.mk _
  rw [jsTrim_toList]
  rw [← hA, ← hB]
  rw [hfixR, List.reverse_reverse, hfixB]

/-! ## Plot gallery claims (C8, C9) -/

/-- C8: after every `addPlot`, the current index points at the newly
appended image, so the 1-based position equals the total. -/
theorem claim_C8_append_focuses_newest (s : AppState) (img : String) :
    currentView (addPlot img s) =
      some (img, (addPlot img s).plotImages.length,
            (addPlot img s).plotImages.length) := by
  unfold currentView addPlot
  simp [List.getD_eq_getElem?_getD, List.getElem?_concat_length]

/-- The plot-gallery operations of the UI: append (new plot from a run),
clear, and the next/prev navigation clicks. -/
inductive PlotOp
  | append (img : String)
  | clear
  | next
  | prev
deriving DecidableEq, Repr

/-- Apply one plot-gallery operation to the state. -/
def applyPlotOp : PlotOp → AppState → AppState
  | PlotOp.append img, s => addPlot img s
  | PlotOp.clear, s => clearPlots s
  | PlotOp.next, s => plotNextClick s
  | PlotOp.prev, s => plotPrevClick s

/-- Apply a sequence of plot-gallery operations, left to right. -/
def applyPlotOps (ops : List PlotOp) (s : AppState) : AppState :=
  ops.foldl (fun st op => applyPlotOp op st) s

/-- The plot-index invariant: the current index never exceeds the last
valid index (and is 0 when the buffer is empty, by truncated
subtraction). -/
def PlotInv (s : AppState) : Prop :=
  s.currentPlotIndex ≤ s.plotImages.length - 1

lemma plotInv_applyPlotOp (op : PlotOp) (s : AppState) (h : PlotInv s) :
    PlotInv (applyPlotOp op s) := by
  unfold PlotInv at h ⊢
  cases op with
  | append img => simp [applyPlotOp, addPlot]
  | clear => simp [applyPlotOp, clearPlots]
  | next =>
    simp only [applyPlotOp, plotNextClick]
    split
    · next hlt =>
      show s.currentPlotIndex + 1 ≤ s.plotImages.length - 1
      omega
    · exact h
  | prev =>
    simp only [applyPlotOp, plotPrevClick]
    split
    · next hlt =>
      show s.currentPlotIndex - 1 ≤ s.plotImages.length - 1
      omega
    · exact h

lemma plotInv_applyPlotOps (ops : List PlotOp) :
    ∀ s : AppState, PlotInv s → PlotInv (applyPlotOps ops s) := by
  induction ops with
  | nil => intro s h; exact h
  | cons op ops ih =>
    intro s h
    exact ih _ (plotInv_applyPlotOp op s h)

/-- C9: plot navigation is saturating (`prev` is a no-op at position 1,
`next` at position N), and in every state reachable from the initial
state by append/clear/next/prev the 1-based position stays in `[1, N]`
while the buffer is non-empty. -/
theorem claim_C9_plot_nav_saturating :
    (∀ s : AppState, s.currentPlotIndex = 0 → plotPrevClick s = s) ∧
    (∀ s : AppState, s.currentPlotIndex + 1 = s.plotImages.length →
      plotNextClick s = s) ∧
    (∀ ops : List PlotOp,
      (applyPlotOps ops initialState).plotImages ≠ [] →
        1 ≤ (applyPlotOps ops initialState).currentPlotIndex + 1 ∧
        (applyPlotOps ops initialState).currentPlotIndex + 1 ≤
          (applyPlotOps ops initialState).plotImages.length) := by
  refine ⟨?_, ?_, ?_⟩
  · intro s h
    unfold plotPrevClick
    rw [if_neg]
    omega
  · intro s h
    unfold plotNextClick
    rw [if_neg]
    omega
  · intro ops hne
    have hinv : PlotInv (applyPlotOps ops initialState) :=
      plotInv_applyPlotOps ops initialState (by unfold PlotInv initialState; simp)
    have hlen : 0 < (applyPlotOps ops initialState).plotImages.length :=
      List.length_pos.mpr hne
    unfold PlotInv at hinv
    omega

/-! ## Field-preservation lemmas for the session runner -/

lemma addPlots_nil (s : AppState) : addPlots [] s = s := rfl

lemma addPlots_cons (img : String) (imgs : List String) (s : AppState) :
    addPlots (img :: imgs) s = addPlots imgs (addPlot img s) := rfl

/-- `addPlot`/`addPlots` touch only the plot buffer and its index. -/
lemma addPlots_preserves (imgs : List String) :
    ∀ s : AppState,
      (addPlots imgs s).isRunning = s.isRunning ∧
      (addPlots imgs s).webRLoaded = s.webRLoaded ∧
      (addPlots imgs s).consoleOutput = s.consoleOutput ∧
      (addPlots imgs s).commandHistory = s.commandHistory ∧
      (addPlots imgs s).historyIndex = s.historyIndex ∧
      (addPlots imgs s).liveBuffer = s.liveBuffer := by
  induction imgs with
  | nil => intro s; exact ⟨rfl, rfl, rfl, rfl, rfl, rfl⟩
  | cons img imgs ih =>
    intro s
    rw [addPlots_cons]
    exact ih (addPlot img s)

lemma addPlots_consoleOutput (imgs : List String) (s : AppState) :
    (addPlots imgs s).consoleOutput = s.consoleOutput :=
  (addPlots_preserves imgs s).2.2.1

lemma addPlots_commandHistory (imgs : List String) (s : AppState) :
    (addPlots imgs s).commandHistory = s.commandHistory :=
  (addPlots_preserves imgs s).2.2.2.1

lemma addPlots_historyIndex (imgs : List String) (s : AppState) :
    (addPlots imgs s).historyIndex = s.historyIndex :=
  (addPlots_preserves imgs s).2.2.2.2.1

lemma addPlots_liveBuffer (imgs : List String) (s : AppState) :
    (addPlots imgs s).liveBuffer = s.liveBuffer :=
  (addPlots_preserves imgs s).2.2.2.2.2

/-- `runCode` never touches the command history, the history cursor, the
console input buffer, or the interpreter handle. -/
lemma runCode_preserves_repl (interp : InterpBehavior) (code : String)
    (s : AppState) :
    (runCode interp code s).1.commandHistory = s.commandHistory ∧
    (runCode interp code s).1.historyIndex = s.historyIndex ∧
    (runCode interp code s).1.liveBuffer = s.liveBuffer ∧
    (runCode interp code s).1.webRLoaded = s.webRLoaded := by
  unfold runCode
  split
  · exact ⟨rfl, rfl, rfl, rfl⟩
  · cases isHelpRequest code with
    | some topic => exact ⟨rfl, rfl, rfl, rfl⟩
    | none =>
      cases interp with
      | shelterFail msg => exact ⟨rfl, rfl, rfl, rfl⟩
      | captureFail msg => exact ⟨rfl, rfl, rfl, rfl⟩
      | success r =>
        refine ⟨?_, ?_, ?_, ?_⟩ <;>
          simp [addPlots_commandHistory, addPlots_historyIndex,
            addPlots_liveBuffer, (addPlots_preserves r.images _).2.1]

/-! ## Witness for C9 -/

/-- Witness for C9: concrete instantiations of each saturating/no-op and
bound statement. -/
theorem claim_C9_witness :
    plotPrevClick initialState = initialState ∧
    plotNextClick (addPlot ("p") initialState) = addPlot ("p") initialState ∧
    (1 ≤ (applyPlotOps [PlotOp.append ("p")] initialState).currentPlotIndex + 1 ∧
      (applyPlotOps [PlotOp.append ("p")] initialState).currentPlotIndex + 1 ≤
        (applyPlotOps [PlotOp.append ("p")] initialState).plotImages.length) :=
  ⟨claim_C9_plot_nav_saturating.1 initialState rfl,
   claim_C9_plot_nav_saturating.2.1 _ (by decide),
   claim_C9_plot_nav_saturating.2.2 _ (by decide)⟩

/-! ## Help resolver claim (C5) -/

/-- C5: `isHelpRequest` is a pure pattern match: `?mean` yields `mean`,
`help("plot")` yields `plot`, `1 + 1` yields `null`; whenever the first
pattern matches its trimmed capture is returned (first pattern wins),
and when neither pattern matches the result is `null`. -/
theorem claim_C5_isHelpRequest_contract :
    isHelpRequest ("?mean") = some ("mean") ∧
    isHelpRequest ("help(\"plot\")") = some ("plot") ∧
    isHelpRequest ("1 + 1") = none ∧
    (∀ code t, matchHelpTopic1 code = some t →
      isHelpRequest code = some (jsTrim t)) ∧
    (∀ code, matchHelpTopic1 code = none → matchHelpTopic2 code = none →
      isHelpRequest code = none) := by
  refine ⟨by decide, by decide, by decide, ?_, ?_⟩
  · intro code t h
    unfold isHelpRequest
    rw [h]
  · intro code h1 h2
    unfold isHelpRequest
    rw [h1, h2]
    rfl

/-- Witness for C5: the pattern-priority part at `?stats ` (capture is
trimmed) and the no-match part at an ordinary expression. -/
theorem claim_C5_witness :
    isHelpRequest ("?stats ") = some (jsTrim ("stats ")) ∧
    isHelpRequest ("x <- 1") = none :=
  ⟨claim_C5_isHelpRequest_contract.2.2.2.1 ("?stats ") ("stats ") (by decide),
   claim_C5_isHelpRequest_contract.2.2.2.2 ("x <- 1") (by decide) (by decide)⟩

/-! ## Output routing claim (C4) -/

/-- The routing of one Output Record, written out as the specification
states it: blank stdout/stderr suppressed, non-blank kept with its
category, condition/message records always kept as stderr. -/
def routeRecordSpec : RRecord → Option ConsoleLine
  | RRecord.stdout d =>
    if jsTrim d = "" then none else some ⟨d, OutKind.stdout⟩
  | RRecord.stderr d =>
    if jsTrim d = "" then none else some ⟨d, OutKind.stderr⟩
  | RRecord.message d => some ⟨d, OutKind.stderr⟩

lemma routeOutput_eq_filterMap (recs : List RRecord) :
    routeOutput recs = recs.filterMap routeRecordSpec := by
  induction recs with
  | nil => rfl
  | cons rec rest ih =>
    cases rec with
    | stdout d =>
      by_cases h : jsTrim d = "" <;>
        simp [routeOutput, routeRecordSpec, h, ih]
    | stderr d =>
      by_cases h : jsTrim d = "" <;>
        simp [routeOutput, routeRecordSpec, h, ih]
    | message d => simp [routeOutput, routeRecordSpec, ih]

/-- C4: on a successful evaluation, the records appended to the Output
Sink are exactly the evaluation's Output Records in emission order,
with blank stdout/stderr suppressed, non-blank stdout/stderr kept under
their own category, and message records kept under stderr even when
blank. -/
theorem claim_C4_output_routing (code : String) (s : AppState)
    (r : EvalResult)
    (hlock : s.isRunning = false) (hweb : s.webRLoaded = true)
    (hcode : code ≠ "") (hhelp : isHelpRequest code = none) :
    (runCode (InterpBehavior.success r) code s).1.consoleOutput =
      s.consoleOutput ++ echoLines code ++
        r.output.filterMap (fun rec => match rec with
          | RRecord.stdout d =>
            if jsTrim d = "" then none else some ⟨d, OutKind.stdout⟩
          | RRecord.stderr d =>
            if jsTrim d = "" then none else some ⟨d, OutKind.stderr⟩
          | RRecord.message d => some ⟨d, OutKind.stderr⟩) := by
  have hguard : ¬(s.isRunning = true ∨ s.webRLoaded = false ∨ code = "") := by
    simp [hlock, hweb, hcode]
  unfold runCode
  rw [if_neg hguard]
  simp only [hhelp, addPlots_consoleOutput]
  rw [routeOutput_eq_filterMap]
  rfl

/-- Witness for C4: a concrete run whose result carries a non-blank
stdout record, a blank stdout record, a blank stderr record and a blank
message record; only the blank stdout/stderr records are dropped. -/
theorem claim_C4_witness :
    (runCode (InterpBehavior.success
        ⟨[RRecord.stdout ("[1] 2"), RRecord.stdout (" "),
          RRecord.stderr (""), RRecord.message ("")], []⟩)
      ("1 + 1") readyState).1.consoleOutput =
      readyState.consoleOutput ++ echoLines ("1 + 1") ++
        [RRecord.stdout ("[1] 2"), RRecord.stdout (" "),
         RRecord.stderr (""), RRecord.message ("")].filterMap
          (fun rec => match rec with
            | RRecord.stdout d =>
              if jsTrim d = "" then none else some ⟨d, OutKind.stdout⟩
            | RRecord.stderr d =>
              if jsTrim d = "" then none else some ⟨d, OutKind.stderr⟩
            | RRecord.message d => some ⟨d, OutKind.stderr⟩) :=
  claim_C4_output_routing ("1 + 1") readyState _ rfl rfl (by decide) (by decide)

/-! ## Precondition claim (C3, corrected) -/

/-- C3 counterexample: whitespace-only (but non-empty) code is not
rejected by `runCode` — the guard only checks for the empty string, so
a single space is echoed and evaluated rather than silently skipped. -/
theorem claim_C3_counterexample :
    (runCode (InterpBehavior.success ⟨[], []⟩) (" ") readyState).1 ≠
      readyState := by
  decide

/-- C3 amended: `runCode` is a silent no-op — state unchanged, no events,
so no sink change, no shelter, no lock change — whenever the Run Lock is
held, or the code is the empty string, or the interpreter is not loaded;
whitespace-only non-empty code is not rejected by `runCode` itself (its
callers only pass trimmed code). -/
theorem claim_C3_amended_noop_guard (interp : InterpBehavior) (code : String)
    (s : AppState)
    (h : s.isRunning = true ∨ s.webRLoaded = false ∨ code = "") :
    runCode interp code s = (s, []) := by
  unfold runCode
  rw [if_pos h]

/-- Witness for C3 (amended): a run submitted while the Run Lock is held
changes nothing. -/
theorem claim_C3_witness :
    runCode (InterpBehavior.success ⟨[], []⟩) ("1 + 1")
      { readyState with isRunning := true } =
      ({ readyState with isRunning := true }, []) :=
  claim_C3_amended_noop_guard _ _ _ (Or.inl rfl)

/-! ## Session runner claims (C1, C2) -/

/-- The records a run appends after the command echo, by interpreter
outcome: the evaluation's (routed) success output records, or exactly
one error record carrying the failure's message. -/
def runAppended (interp : InterpBehavior) : List ConsoleLine :=
  match interp with
  | InterpBehavior.success r => routeOutput r.output
  | InterpBehavior.shelterFail msg => [errorLine msg]
  | InterpBehavior.captureFail msg => [errorLine msg]

/-- C1: for non-empty, non-help code submitted with the Run Lock free and
the interpreter loaded, the run appends the command echo plus exactly
one of {the evaluation's success output records, one error record} to
the Output Sink, and the Run Lock is false again after the run resolves,
whatever the interpreter does. -/
theorem claim_C1_exclusive_outcome (interp : InterpBehavior) (code : String)
    (s : AppState)
    (hlock : s.isRunning = false) (hweb : s.webRLoaded = true)
    (hcode : code ≠ "") (hhelp : isHelpRequest code = none) :
    (runCode interp code s).1.isRunning = false ∧
    (runCode interp code s).1.consoleOutput =
      s.consoleOutput ++ echoLines code ++ runAppended interp := by
  have hguard : ¬(s.isRunning = true ∨ s.webRLoaded = false ∨ code = "") := by
    simp [hlock, hweb, hcode]
  unfold runCode
  rw [if_neg hguard]
  simp only [hhelp]
  cases interp with
  | shelterFail msg => exact ⟨rfl, rfl⟩
  | captureFail msg => exact ⟨rfl, rfl⟩
  | success r =>
    refine ⟨rfl, ?_⟩
    simp only [addPlots_consoleOutput]
    rfl

/-- Witness for C1: a concrete failing evaluation appends the echo and
exactly one error record, and clears the Run Lock. -/
theorem claim_C1_witness :
    (runCode (InterpBehavior.captureFail ("object not found")) ("plot(x)")
      readyState).1.isRunning = false ∧
    (runCode (InterpBehavior.captureFail ("object not found")) ("plot(x)")
      readyState).1.consoleOutput =
      readyState.consoleOutput ++ echoLines ("plot(x)") ++
        [errorLine ("object not found")] :=
  claim_C1_exclusive_outcome _ _ _ rfl rfl (by decide) (by decide)

/-- C2: on every path of every run, the shelter is acquired exactly when
it is released (so no run leaves an unreleased evaluation context), and
when a shelter was acquired, acquisition, release and the clearing of
the Run Lock occur in that order in the run's event trace. -/
theorem claim_C2_shelter_released (interp : InterpBehavior) (code : String)
    (s : AppState) :
    (Event.acquire ∈ (runCode interp code s).2 ↔
      Event.release ∈ (runCode interp code s).2) ∧
    (Event.acquire ∈ (runCode interp code s).2 →
      [Event.acquire, Event.release, Event.lockClear].Sublist
        (runCode interp code s).2) := by
  unfold runCode
  split
  · simp
  · cases isHelpRequest code with
    | some topic => simp
    | none =>
      cases interp with
      | shelterFail msg =>
        constructor
        · simp [List.mem_append, List.mem_map]
        · intro h
          exfalso
          simp [List.mem_append, List.mem_map] at h
      | captureFail msg =>
        constructor
        · simp [List.mem_append]
        · intro _
          refine List.Sublist.trans ?_ (List.sublist_append_right _ _)
          exact List.Sublist.cons₂ _ (List.Sublist.cons₂ _
            (List.Sublist.cons _ (List.Sublist.cons₂ _ List.Sublist.slnil)))
      | success r =>
        constructor
        · simp [List.mem_append]
        · intro _
          refine List.Sublist.trans ?_ (List.sublist_append_right
            (Event.lockSet :: (echoLines code).map Event.sinkAppend) _)
          rw [List.cons_append]
          exact List.Sublist.cons₂ _
            ((by decide :
              [Event.release, Event.lockClear].Sublist
                [Event.release, Event.lockClear]).trans
              (List.sublist_append_right _ _))

/-- Witness for C2: in a concrete failing run the trace contains the
acquisition, and acquisition/release/lock-clear appear in order. -/
theorem claim_C2_witness :
    [Event.acquire, Event.release, Event.lockClear].Sublist
      (runCode (InterpBehavior.captureFail ("boom")) ("1 + 1")
        readyState).2 :=
  (claim_C2_shelter_released (InterpBehavior.captureFail ("boom")) ("1 + 1")
    readyState).2 (by decide)

/-! ## REPL history lemmas -/

lemma submitAll_nil (interp : InterpBehavior) (s : AppState) :
    submitAll interp [] s = s := rfl

lemma submitAll_cons (interp : InterpBehavior) (x : String)
    (xs : List String) (s : AppState) :
    submitAll interp (x :: xs) s = submitAll interp xs (submitConsole interp x s) :=
  rfl

/-- A console submission whose trim is non-empty pushes its trimmed text
onto the front of the history, resets the cursor to `-1` and clears the
input buffer. -/
lemma submitConsole_spec (interp : InterpBehavior) (input : String)
    (s : AppState) (h : jsTrim input ≠ "") :
    (submitConsole interp input s).commandHistory =
      jsTrim input :: s.commandHistory ∧
    (submitConsole interp input s).historyIndex = -1 ∧
    (submitConsole interp input s).liveBuffer = "" := by
  simp only [submitConsole, handleConsoleEnter]
  rw [if_pos h]
  refine ⟨?_, ?_, ?_⟩
  · rw [(runCode_preserves_repl _ _ _).1]
  · rw [(runCode_preserves_repl _ _ _).2.1]
  · rw [(runCode_preserves_repl _ _ _).2.2.1]

/-- Effect of a sequence of already-trimmed, non-empty console
submissions: the history gains the inputs most-recent-first and the
cursor ends at `-1` with an empty buffer. -/
lemma submitAll_spec (interp : InterpBehavior) (inputs : List String) :
    ∀ s : AppState, (∀ x ∈ inputs, x ≠ "" ∧ jsTrim x = x) →
      (submitAll interp inputs s).commandHistory =
        inputs.reverse ++ s.commandHistory ∧
      (inputs ≠ [] →
        (submitAll interp inputs s).historyIndex = -1 ∧
        (submitAll interp inputs s).liveBuffer = "") := by
  induction inputs with
  | nil =>
    intro s _
    exact ⟨by simp [submitAll_nil], fun h => absurd rfl h⟩
  | cons x xs ih =>
    intro s h
    have hx : x ≠ "" ∧ jsTrim x = x := h x (by simp)
    have hxt : jsTrim x ≠ "" := by rw [hx.2]; exact hx.1
    have hsub := submitConsole_spec interp x s hxt
    have hxs : ∀ y ∈ xs, y ≠ "" ∧ jsTrim y = y := fun y hy => h y (by simp [hy])
    have ihh := ih (submitConsole interp x s) hxs
    rw [submitAll_cons]
    constructor
    · rw [ihh.1, hsub.1, hx.2]
      simp
    · intro _
      cases xs with
      | nil =>
        rw [submitAll_nil]
        exact ⟨hsub.2.1, hsub.2.2⟩
      | cons y ys => exact ihh.2 (by simp)

/-- `runFromEditor` never touches the history. -/
lemma runFromEditor_commandHistory (interp : InterpBehavior) (code : String)
    (s : AppState) :
    ((runFromEditor interp code s).1).commandHistory = s.commandHistory := by
  unfold runFromEditor
  split
  · exact (runCode_preserves_repl _ _ _).1
  · rfl

lemma handleConsoleUp_commandHistory (s : AppState) :
    (handleConsoleUp s).commandHistory = s.commandHistory := by
  unfold handleConsoleUp
  split
  · rfl
  · rfl

lemma handleConsoleDown_commandHistory (s : AppState) :
    (handleConsoleDown s).commandHistory = s.commandHistory := by
  unfold handleConsoleDown
  split
  · rfl
  split
  · rfl
  · rfl

/-! ## History order claim (C6) -/

/-- C6: starting from an empty history, `k` successive non-empty
(trimmed) console submissions leave the history most-recent-first with
the cursor at `-1`; the editor run path never pushes onto the history. -/
theorem claim_C6_history_most_recent_first (interp : InterpBehavior)
    (inputs : List String) (s : AppState)
    (hs : s.commandHistory = [])
    (hin : ∀ x ∈ inputs, x ≠ "" ∧ jsTrim x = x) :
    (submitAll interp inputs s).commandHistory = inputs.reverse ∧
    (inputs ≠ [] → (submitAll interp inputs s).historyIndex = -1) ∧
    (∀ interp2 code2 s2,
      ((runFromEditor interp2 code2 s2).1).commandHistory =
        s2.commandHistory) := by
  refine ⟨?_, ?_, fun interp2 code2 s2 => runFromEditor_commandHistory _ _ _⟩
  · rw [(submitAll_spec interp inputs s hin).1, hs]
    simp
  · intro hne
    exact ((submitAll_spec interp inputs s hin).2 hne).1

/-- Witness for C6: two concrete submissions land most-recent-first with
cursor `-1`, and a concrete editor run leaves the history alone. -/
theorem claim_C6_witness :
    (submitAll (InterpBehavior.success ⟨[], []⟩) [("a"), ("b")]
      readyState).commandHistory = [("b"), ("a")] ∧
    (submitAll (InterpBehavior.success ⟨[], []⟩) [("a"), ("b")]
      readyState).historyIndex = -1 ∧
    ((runFromEditor (InterpBehavior.success ⟨[], []⟩) ("1 + 1")
      readyState).1).commandHistory = readyState.commandHistory :=
  ⟨(claim_C6_history_most_recent_first _ _ _ rfl (by decide)).1,
   (claim_C6_history_most_recent_first _ _ _ rfl (by decide)).2.1 (by decide),
   (claim_C6_history_most_recent_first (InterpBehavior.success ⟨[], []⟩)
      [("a"), ("b")] readyState rfl (by decide)).2.2 _ _ _⟩

/-! ## History navigation claim (C7, corrected) -/

lemma handleConsoleUp_eq_pos (s : AppState)
    (h : s.historyIndex < (s.commandHistory.length : Int) - 1) :
    handleConsoleUp s =
      { s with historyIndex := s.historyIndex + 1,
               liveBuffer :=
                 s.commandHistory.getD (s.historyIndex + 1).toNat "" } := by
  unfold handleConsoleUp
  rw [if_pos h]

/-- Iterating `handleConsoleUp` from a fresh cursor walks the history
from index 0 upward: after `n ≤ length` steps the cursor is `n - 1` and
(for `n ≥ 1`) the buffer holds `history[n - 1]`. -/
lemma handleConsoleUp_iterate (s : AppState) (h0 : s.historyIndex = -1) :
    ∀ n : Nat, n ≤ s.commandHistory.length →
      (handleConsoleUp^[n] s).commandHistory = s.commandHistory ∧
      (handleConsoleUp^[n] s).historyIndex = (n : Int) - 1 ∧
      (1 ≤ n → (handleConsoleUp^[n] s).liveBuffer =
        s.commandHistory.getD (n - 1) "") := by
  intro n
  induction n with
  | zero =>
    intro _
    refine ⟨rfl, ?_, fun h => absurd h (by omega)⟩
    simpa using h0
  | succ n ih =>
    intro hle
    have ihh := ih (Nat.le_of_succ_le hle)
    rw [Function.iterate_succ_apply']
    have hcond : (handleConsoleUp^[n] s).historyIndex <
        ((handleConsoleUp^[n] s).commandHistory.length : Int) - 1 := by
      rw [ihh.1, ihh.2.1]
      omega
    rw [handleConsoleUp_eq_pos _ hcond]
    refine ⟨ihh.1, ?_, ?_⟩
    · show (handleConsoleUp^[n] s).historyIndex + 1 = ((n + 1 : Nat) : Int) - 1
      rw [ihh.2.1]
      push_cast
      ring
    · intro _
      show (handleConsoleUp^[n] s).commandHistory.getD
          ((handleConsoleUp^[n] s).historyIndex + 1).toNat "" =
        s.commandHistory.getD (n + 1 - 1) ""
      rw [ihh.1, ihh.2.1]
      congr 1
      omega

/-- At the oldest entry (`cursor = length - 1`) `handleConsoleUp` is a
no-op. -/
lemma handleConsoleUp_noop (s : AppState)
    (h : ¬s.historyIndex < (s.commandHistory.length : Int) - 1) :
    handleConsoleUp s = s := by
  unfold handleConsoleUp
  rw [if_neg h]

lemma getD_reverse {α : Type _} (l : List α) (i : Nat) (hi : i < l.length)
    (d : α) : l.reverse.getD i d = l.getD (l.length - 1 - i) d := by
  rw [List.getD_eq_getElem?_getD, List.getD_eq_getElem?_getD,
    List.getElem?_reverse hi]

/-- C7 counterexample: after submitting `a` then `b`, the first
`navigateUp` recalls the most recent command `b`, not the first-submitted
command `a` — so the claimed order `s_1, s_2, ...` is wrong. -/
theorem claim_C7_counterexample :
    (handleConsoleUp (submitAll (InterpBehavior.success ⟨[], []⟩)
      [("a"), ("b")] readyState)).liveBuffer ≠ ("a") := by
  decide

/-- C7 amended: after `k` successive non-empty (trimmed) submissions
`s_1..s_k` from a fresh state, the `j`-th `navigateUp` (for `1 ≤ j ≤ k`)
sets the buffer to `s_{k+1-j}` — that is, `s_k` first, then `s_{k-1}`,
down to `s_1` — and one further `navigateUp` is a no-op. -/
theorem claim_C7_navigate_up_most_recent_first (interp : InterpBehavior)
    (inputs : List String) (s : AppState)
    (hs : s.commandHistory = []) (hidx : s.historyIndex = -1)
    (hin : ∀ x ∈ inputs, x ≠ "" ∧ jsTrim x = x) :
    (∀ j : Nat, 1 ≤ j → j ≤ inputs.length →
      (handleConsoleUp^[j] (submitAll interp inputs s)).liveBuffer =
        inputs.getD (inputs.length - j) "") ∧
    handleConsoleUp^[inputs.length + 1] (submitAll interp inputs s) =
      handleConsoleUp^[inputs.length] (submitAll interp inputs s) := by
  have hhist : (submitAll interp inputs s).commandHistory = inputs.reverse := by
    rw [(submitAll_spec interp inputs s hin).1, hs]
    simp
  have hsti : (submitAll interp inputs s).historyIndex = -1 := by
    cases inputs with
    | nil => rw [submitAll_nil]; exact hidx
    | cons x xs => exact ((submitAll_spec interp _ s hin).2 (by simp)).1
  have hlen : (submitAll interp inputs s).commandHistory.length =
      inputs.length := by rw [hhist]; simp
  constructor
  · intro j h1 h2
    have hit := handleConsoleUp_iterate (submitAll interp inputs s) hsti j
      (by omega)
    rw [hit.2.2 h1, hhist, getD_reverse inputs (j - 1) (by omega)]
    congr 1
    omega
  · rw [Function.iterate_succ_apply']
    apply handleConsoleUp_noop
    have hit := handleConsoleUp_iterate (submitAll interp inputs s) hsti
      inputs.length (by omega)
    rw [hit.1, hit.2.1, hlen]
    omega

/-- Witness for C7 (amended): with submissions `a` then `b`, the first
`navigateUp` recalls `b`, and a third `navigateUp` equals the second. -/
theorem claim_C7_witness :
    (handleConsoleUp^[1] (submitAll (InterpBehavior.success ⟨[], []⟩)
      [("a"), ("b")] readyState)).liveBuffer =
      [("a"), ("b")].getD ([("a"), ("b")].length - 1) "" ∧
    handleConsoleUp^[([("a"), ("b")] : List String).length + 1]
        (submitAll (InterpBehavior.success ⟨[], []⟩) [("a"), ("b")]
          readyState) =
      handleConsoleUp^[([("a"), ("b")] : List String).length]
        (submitAll (InterpBehavior.success ⟨[], []⟩) [("a"), ("b")]
          readyState) :=
  ⟨(claim_C7_navigate_up_most_recent_first (InterpBehavior.success ⟨[], []⟩)
      [("a"), ("b")] readyState rfl rfl (by decide)).1 1 (by decide)
      (by decide),
   (claim_C7_navigate_up_most_recent_first (InterpBehavior.success ⟨[], []⟩)
      [("a"), ("b")] readyState rfl rfl (by decide)).2⟩

/-! ## History well-formedness claim (C10) -/

/-- The REPL-surface operations that can run between submissions: typing
`input` and pressing Enter in the console, Up/Down navigation, and an
editor-triggered run. -/
inductive ReplOp
  | enter (interp : InterpBehavior) (input : String)
  | up
  | down
  | editorRun (interp : InterpBehavior) (code : String)

/-- Apply one REPL-surface operation to the state. -/
def applyReplOp : ReplOp → AppState → AppState
  | ReplOp.enter interp input, s => submitConsole interp input s
  | ReplOp.up, s => handleConsoleUp s
  | ReplOp.down, s => handleConsoleDown s
  | ReplOp.editorRun interp code, s => (runFromEditor interp code s).1

/-- Apply a sequence of REPL-surface operations, left to right. -/
def applyReplOps (ops : List ReplOp) (s : AppState) : AppState :=
  ops.foldl (fun st op => applyReplOp op st) s

/-- Well-formed history: every entry is non-empty and equal to its own
trim. -/
def HistWF (h : List String) : Prop := ∀ e ∈ h, e ≠ "" ∧ jsTrim e = e

/-- What one console submission does to the history: nothing when the
trim is blank, otherwise it pushes exactly the trimmed input. -/
lemma submitConsole_commandHistory (interp : InterpBehavior) (input : String)
    (s : AppState) :
    (submitConsole interp input s).commandHistory =
      if jsTrim input = "" then s.commandHistory
      else jsTrim input :: s.commandHistory := by
  by_cases h : jsTrim input = ""
  · rw [if_pos h]
    simp only [submitConsole, handleConsoleEnter]
    rw [if_neg (by simp [h])]
  · rw [if_neg h]
    exact (submitConsole_spec interp input s h).1

lemma histWF_applyReplOp (op : ReplOp) (s : AppState)
    (h : HistWF s.commandHistory) :
    HistWF (applyReplOp op s).commandHistory := by
  cases op with
  | enter interp input =>
    show HistWF (submitConsole interp input s).commandHistory
    rw [submitConsole_commandHistory]
    split
    · exact h
    · next hne =>
      intro e he
      rcases List.mem_cons.mp he with rfl | hmem
      · exact ⟨hne, jsTrim_jsTrim input⟩
      · exact h e hmem
  | up =>
    show HistWF (handleConsoleUp s).commandHistory
    rw [handleConsoleUp_commandHistory]
    exact h
  | down =>
    show HistWF (handleConsoleDown s).commandHistory
    rw [handleConsoleDown_commandHistory]
    exact h
  | editorRun interp code =>
    show HistWF ((runFromEditor interp code s).1).commandHistory
    rw [runFromEditor_commandHistory]
    exact h

lemma histWF_applyReplOps (ops : List ReplOp) :
    ∀ s : AppState, HistWF s.commandHistory →
      HistWF (applyReplOps ops s).commandHistory := by
  induction ops with
  | nil => intro s h; exact h
  | cons op ops ih => intro s h; exact ih _ (histWF_applyReplOp op s h)

/-- C10: every entry ever stored in the history is a non-empty string
equal to its own trim — the console Enter path pushes only the trimmed,
non-blank input, and no other REPL operation (Up, Down, editor run)
inserts or modifies history entries. -/
theorem claim_C10_history_entries_trimmed_nonempty :
    (∀ (ops : List ReplOp) (s : AppState), HistWF s.commandHistory →
      HistWF (applyReplOps ops s).commandHistory) ∧
    (∀ s : AppState, (handleConsoleUp s).commandHistory = s.commandHistory) ∧
    (∀ s : AppState,
      (handleConsoleDown s).commandHistory = s.commandHistory) ∧
    (∀ (interp : InterpBehavior) (code : String) (s : AppState),
      ((runFromEditor interp code s).1).commandHistory = s.commandHistory) ∧
    (∀ (interp : InterpBehavior) (input : String) (s : AppState),
      (submitConsole interp input s).commandHistory =
        if jsTrim input = "" then s.commandHistory
        else jsTrim input :: s.commandHistory) :=
  ⟨fun ops s h => histWF_applyReplOps ops s h,
   handleConsoleUp_commandHistory,
   handleConsoleDown_commandHistory,
   runFromEditor_commandHistory,
   submitConsole_commandHistory⟩

/-- Witness for C10: the entry created by submitting the padded input
`" x "` is the non-empty trimmed string `x`. -/
theorem claim_C10_witness : ("x") ≠ "" ∧ jsTrim ("x") = ("x") :=
  claim_C10_history_entries_trimmed_nonempty.1
    [ReplOp.enter (InterpBehavior.success ⟨[], []⟩) (" x ")] readyState
    (fun e he => absurd he (List.not_mem_nil e)) ("x") (by decide)

end Playground
